import Mathlib

/-!
# Verification of the waydows frame-streaming harness

A shallow embedding of the waydows repository (a frame-streaming benchmark
harness over Hyper-V / unix sockets) together with theorems settling the
specification claims about it.

Conventions:
* `Instant` and `Duration` values are natural numbers (nanosecond ticks of a
  monotonic clock); `Instant` subtraction used by the code is always guarded,
  so `Nat` truncated subtraction is exact where it is used.
* Blocking operations are modelled by `Option`: `none` means the caller would
  block (or, for the scheduler input, that the run never returned).
* External library calls (the crossbeam bounded channel, the uuid crate's
  field codec, the Windows registry) are modelled by explicit state-passing
  definitions documented at their declaration.
-/

set_option autoImplicit false

namespace Waydows

/-- `std::ops::ControlFlow<()>` as returned by the scheduler callbacks
(`run_every_second`'s `f`): continue ticking or stop. -/
inductive ControlFlow where
  | Continue : ControlFlow
  | Break : ControlFlow
deriving DecidableEq, Repr

/-- The post-callback deadline step of `run_every_second`
(src/base/src/main.rs lines 21-27): `next_time += interval`, then
`next_time.checked_duration_since(Instant::now())` either yields a sleep
duration (deadline still in the future, first component of the result is the
kept deadline, second the sleep) or the deadline is reset to `now`
(`next_time = Instant::now()`, no sleep). -/
def advanceDeadline (interval nextTime now : Nat) : Nat × Option Nat :=
  let nd := nextTime + interval
  if now ≤ nd then (nd, some (nd - now)) else (now, none)

/-- One observed iteration of the `run_every_second` loop: the control flow
returned by the callback and the value of `Instant::now()` sampled right
after the callback returned (the argument of `checked_duration_since`). -/
structure TickInput where
  flow : ControlFlow
  now : Nat
deriving DecidableEq, Repr

/-- `run_every_second` (src/base/src/main.rs lines 11-29), run against a
finite trace of iteration observations. `nextTime` is the mutable deadline
(initialised by the caller to `Instant::now()`). Returns `some k` when the
loop broke out after exactly `k` callback invocations within the trace, and
`none` when the trace was exhausted with the loop still running. -/
def runEverySecond (interval : Nat) : Nat → List TickInput → Option Nat
  | _, [] => none
  | nextTime, inp :: rest =>
    match inp.flow with
    | ControlFlow.Break => some 1
    | ControlFlow.Continue =>
      match runEverySecond interval (advanceDeadline interval nextTime inp.now).1 rest with
      | none => none
      | some k => some (k + 1)

/-- `RunningAverage` (src/base/src/main.rs lines 41-60): `count` is a `u32`
(wrapping at `2 ^ 32` as in release-mode `+=`), `total` a `Duration` in
nanoseconds. -/
structure RunningAverage where
  count : Nat
  total : Nat
deriving DecidableEq, Repr

/-- `#[derive(Default)]` for `RunningAverage`: zero count, zero total. -/
def RunningAverage.default : RunningAverage := ⟨0, 0⟩

/-- `RunningAverage::update`: `count += 1; total += duration`. -/
def RunningAverage.update (r : RunningAverage) (d : Nat) : RunningAverage :=
  ⟨(r.count + 1) % 2 ^ 32, r.total + d⟩

/-- `RunningAverage::get`: `None` while no update has happened, otherwise
`total / count` (`Duration` division truncates at nanosecond precision). -/
def RunningAverage.get (r : RunningAverage) : Option Nat :=
  if r.count = 0 then none else some (r.total / r.count)

/-- A frame: an owned byte buffer (`Vec<u8>` of length `width * height`). -/
abbrev Frame := List Nat

/-- Modelled from the spec: the state of `crossbeam::channel::bounded`, the
bounded multi-producer/multi-consumer FrameQueue (the crossbeam crate is an
external dependency; the spec's contract is a bounded FIFO handoff buffer).
-/
structure BoundedChannel where
  capacity : Nat
  buffer : List Frame
deriving DecidableEq, Repr

/-- Modelled from the spec: `crossbeam::channel::bounded(cap)` creates an
empty channel of fixed capacity `cap`. -/
def boundedChannel (cap : Nat) : BoundedChannel := ⟨cap, []⟩

/-- Modelled from the spec: a `send` on the bounded channel. `none` means
the channel is full and the producer blocks: the frame is neither dropped
nor stored and the buffer does not grow. -/
def BoundedChannel.send (q : BoundedChannel) (f : Frame) : Option BoundedChannel :=
  if q.buffer.length < q.capacity then some ⟨q.capacity, q.buffer ++ [f]⟩ else none

/-- Modelled from the spec: a `recv` on the bounded channel. `none` means
the channel is empty and the consumer blocks. -/
def BoundedChannel.recv (q : BoundedChannel) : Option (Frame × BoundedChannel) :=
  match q.buffer with
  | [] => none
  | f :: rest => some (f, ⟨q.capacity, rest⟩)

/-- The FrameQueue as constructed by `server` (src/base/src/main.rs line
85): `crossbeam::channel::bounded(fps.round() as usize)`. `fps` is modelled
as a rational; `Int.toNat` models the `as usize` saturation of negative
rounds to zero. -/
def serverFrameQueue (fps : ℚ) : BoundedChannel := boundedChannel (round fps).toNat

/-- An observable queue operation: a producer attempting a `send` or a
consumer attempting a `recv`. -/
inductive QueueOp where
  | push : Frame → QueueOp
  | pop : QueueOp
deriving DecidableEq, Repr

/-- Effect of one queue operation on the channel state; a blocked operation
(`send` on full, `recv` on empty) leaves the state unchanged. -/
def applyOp (q : BoundedChannel) : QueueOp → BoundedChannel
  | QueueOp.push f =>
    match q.send f with
    | some q2 => q2
    | none => q
  | QueueOp.pop =>
    match q.recv with
    | some (_, q2) => q2
    | none => q

/-- Effect of a sequence of queue operations. -/
def applyOps (q : BoundedChannel) (ops : List QueueOp) : BoundedChannel :=
  ops.foldl applyOp q

/-- One tick of the per-connection delivery callback (src/base/src/main.rs
lines 107-112): `screen_receiver.recv()` pops the next frame, then
`stream.write_all` transmits it; `Ok` yields `Continue`, `Err` yields
`Break`. The queue is viewed from this consumer as the list of frames it
will receive in order; `writeOk` is the outcome of the `write_all` call.
`none` models the tick blocking on an empty queue. -/
def deliveryTick (q : List Frame) (writeOk : Bool) : Option (List Frame × ControlFlow) :=
  match q with
  | [] => none
  | _ :: rest => some (rest, if writeOk then ControlFlow.Continue else ControlFlow.Break)

/-- The paced-delivery loop for one connection: `run_every_second` driving
`deliveryTick` over the frames available to this consumer, with `ws` the
outcomes of the successive `write_all` calls. Returns the frames left in
the queue, the number of ticks executed, and whether the task exited by
signalling `Break` (a failed write). -/
def deliveryRun : List Frame → List Bool → List Frame × Nat × Bool
  | q, [] => (q, 0, false)
  | q, w :: ws =>
    match deliveryTick q w with
    | none => (q, 0, false)
    | some (q2, ControlFlow.Continue) =>
      let r := deliveryRun q2 ws
      (r.1, r.2.1 + 1, r.2.2)
    | some (q2, ControlFlow.Break) => (q2, 1, true)

/-- The durations measured by the client read loop (src/base/src/main.rs
lines 73-77): each iteration samples `now = Instant::now()`, performs a
blocking `read_exact`, and folds `now.elapsed()` into the average. `starts`
are the successive `now` samples, `dones` the completion instants of the
corresponding `read_exact` calls. -/
def measuredDurations (starts dones : List Nat) : List Nat :=
  List.zipWith (fun s d => d - s) starts dones

/-- The client's shared `RunningAverage` after folding every measured
duration (the `average.lock().unwrap().update(now.elapsed())` calls). -/
def clientAverage (starts dones : List Nat) : RunningAverage :=
  (measuredDurations starts dones).foldl RunningAverage.update RunningAverage.default

/-- Outcome of `main`'s role dispatch. -/
inductive MainAction where
  | runClient : MainAction
  | runServer : MainAction
  | errorExit : Nat → MainAction
deriving DecidableEq, Repr

/-- Role dispatch of `main` (src/base/src/main.rs lines 140-147), after the
positional arguments have parsed: `"client"` runs the client, `"server"`
runs the server, anything else prints `unknown kind` and exits with status
`1`. -/
def mainDispatch (kind : String) : MainAction :=
  if kind = "client" then MainAction.runClient
  else if kind = "server" then MainAction.runServer
  else MainAction.errorExit 1

/-- A 128-bit identifier (`uuid::Uuid`) as its 16 bytes in storage order. -/
abbrev Uuid := List Nat

/-- `uuid_as_fields` (src/hv-sock/src/lib.rs lines 253-269): split a uuid
into its `(d1, d2, d3, d4)` fields, recombining the big-endian bytes with
shifts and bitwise ors exactly as the source does. -/
def uuid_as_fields (u : Uuid) : Nat × Nat × Nat × List Nat :=
  let b := fun i : Nat => u.getD i 0
  (b 0 <<< 24 ||| b 1 <<< 16 ||| b 2 <<< 8 ||| b 3,
   b 4 <<< 8 ||| b 5,
   b 6 <<< 8 ||| b 7,
   [b 8, b 9, b 10, b 11, b 12, b 13, b 14, b 15])

/-- Modelled from the spec: `uuid::Uuid::from_fields` (the uuid crate is an
external dependency): serialize `(d1, d2, d3, d4)` into 16 bytes, the first
three fields big-endian. -/
def uuidFromFields (d1 d2 d3 : Nat) (d4 : List Nat) : Uuid :=
  [d1 / 2 ^ 24 % 256, d1 / 2 ^ 16 % 256, d1 / 2 ^ 8 % 256, d1 % 256,
   d2 / 2 ^ 8 % 256, d2 % 256, d3 / 2 ^ 8 % 256, d3 % 256] ++ d4

/-- `uuid_eq` (src/hv-sock/src/lib.rs lines 271-278): compare two uuids
field by field through `uuid_as_fields`. -/
def uuid_eq (l r : Uuid) : Bool :=
  uuid_as_fields l == uuid_as_fields r

/-- Modelled from the spec: `HV_GUID_VSOCK_TEMPLATE`, the fixed template
identifier (an external constant of the Windows SDK re-exported by the
windows crate): `00000000-facb-11e6-bd58-64006a7986d3` as its 16 bytes. -/
def VSOCK_TEMPLATE : Uuid :=
  [0x00, 0x00, 0x00, 0x00, 0xfa, 0xcb, 0x11, 0xe6,
   0xbd, 0x58, 0x64, 0x00, 0x6a, 0x79, 0x86, 0xd3]

/-- `ServiceUuid` wrapping `ServiceUuidRepr` (src/hv-sock/src/lib.rs lines
25-32), flattened into one inductive: either an opaque Windows-side
identifier or a Linux vsock port. -/
inductive ServiceUuid where
  | windows : Uuid → ServiceUuid
  | linux : Nat → ServiceUuid
deriving DecidableEq, Repr

/-- `ServiceUuid::from_uuid` (src/hv-sock/src/lib.rs lines 44-52): if the
uuid with its first field replaced by `0` equals the vsock template,
classify it as a Linux port (the first field); otherwise keep the whole
uuid as an opaque Windows identifier. -/
def ServiceUuid.from_uuid (u : Uuid) : ServiceUuid :=
  if uuid_eq
      (uuidFromFields 0 (uuid_as_fields u).2.1 (uuid_as_fields u).2.2.1 (uuid_as_fields u).2.2.2)
      VSOCK_TEMPLATE
  then ServiceUuid.linux (uuid_as_fields u).1
  else ServiceUuid.windows u

/-- `ServiceUuid::render` (src/hv-sock/src/lib.rs lines 71-79): a Windows
identifier renders as itself; a Linux port renders as the vsock template
with the port substituted for the first field. -/
def ServiceUuid.render : ServiceUuid → Uuid
  | ServiceUuid.windows u => u
  | ServiceUuid.linux port =>
    uuidFromFields port (uuid_as_fields VSOCK_TEMPLATE).2.1
      (uuid_as_fields VSOCK_TEMPLATE).2.2.1 (uuid_as_fields VSOCK_TEMPLATE).2.2.2

/-- Modelled from the spec: the Windows registry state visible to
`HostRegistry` (the windows_registry crate is an external dependency) — the
`GuestCommunicationServices` root key's own `ElementName` value, and its
subkeys (one per registered service), each with an optional `ElementName`
string value. Subkeys are keyed by the rendered service uuid
(`ServiceUuid`'s `Display` prints `render()`). -/
structure HostRegistryState where
  rootElementName : Option String
  services : List (Uuid × Option String)
deriving DecidableEq, Repr

/-- Modelled from the spec: `Key::create` of windows_registry — open the
named subkey, creating it (with no values) when absent. -/
def HostRegistryState.keyCreate (st : HostRegistryState) (u : Uuid) : HostRegistryState :=
  if (st.services.map Prod.fst).contains u then st
  else ⟨st.rootElementName, st.services ++ [(u, none)]⟩

/-- `HostRegistry::register` (src/hv-sock/src/lib.rs lines 189-193):
`self.key.create(...)` creates the service subkey, then
`self.write_with(|key| key.set_string(ELEMENT_NAME, ...))` stores the
element name — on the registry ROOT key, because `write_with` applies the
closure to `&self.key` and the closure's `key` parameter shadows the subkey
handle bound on the previous line. The returned `Service` nevertheless
reports the requested `element_name` (second component). -/
def HostRegistryState.register (st : HostRegistryState) (u : Uuid) (elementName : String) :
    HostRegistryState × String :=
  let st1 := st.keyCreate u
  (⟨some elementName, st1.services⟩, elementName)

/-- `HostRegistry::delete` (src/hv-sock/src/lib.rs lines 195-198):
`remove_tree` of the service subkey; errors (as the registry API does) when
the subkey is absent. -/
def HostRegistryState.delete (st : HostRegistryState) (u : Uuid) :
    Except Unit HostRegistryState :=
  if (st.services.map Prod.fst).contains u
  then Except.ok ⟨st.rootElementName, st.services.filter (fun e => !(e.1 == u))⟩
  else Except.error ()

/-- `HostRegistry::get` (src/hv-sock/src/lib.rs lines 200-205): open the
service subkey (error when absent), then read the `ElementName` value of
that SUBKEY (error when the value is absent there). -/
def HostRegistryState.get (st : HostRegistryState) (u : Uuid) : Except Unit String :=
  match st.services.find? (fun e => e.1 == u) with
  | none => Except.error ()
  | some (_, none) => Except.error ()
  | some (_, some n) => Except.ok n

/-- `HostRegistry::rename` (src/hv-sock/src/lib.rs lines 207-211):
`get(from)` to fetch the element name, then `delete(from)`, then
`register(to, element_name)`, in that order. -/
def HostRegistryState.rename (st : HostRegistryState) (fromId toId : Uuid) :
    Except Unit (HostRegistryState × String) := do
  let elementName ← st.get fromId
  let st1 ← st.delete fromId
  Except.ok (st1.register toId elementName)

/-! ## Theorems -/

/-- C1: RateScheduler deadline update — after a tick on which the callback
signalled continue, the next-deadline timestamp is advanced by exactly one
period; if the advanced deadline is still in the future (`now` has not
passed it) the scheduler keeps it and sleeps exactly until it, and if it
has already passed the deadline is reset to the current time; in either
case the resulting deadline is never in the past, so no burst of catch-up
ticks can fire after an overrun. -/
theorem rateScheduler_deadline_update (interval nextTime now : Nat) :
    (now ≤ nextTime + interval →
      advanceDeadline interval nextTime now
        = (nextTime + interval, some (nextTime + interval - now)))
    ∧ (nextTime + interval < now →
      advanceDeadline interval nextTime now = (now, none))
    ∧ now ≤ (advanceDeadline interval nextTime now).1 := by
  refine ⟨fun h => ?_, fun h => ?_, ?_⟩
  · simp [advanceDeadline, h]
  · simp [advanceDeadline, Nat.not_le.mpr h]
  · by_cases h : now ≤ nextTime + interval
    · simp [advanceDeadline, h]
    · simp [advanceDeadline, h]

/-- Witness for C1 at concrete inputs: with period 10 and deadline 0, a
tick observed at time 4 sleeps 6 until deadline 10, and a tick observed at
time 25 resets the deadline to 25. -/
theorem rateScheduler_deadline_update_witness :
    advanceDeadline 10 0 4 = (10, some 6) ∧ advanceDeadline 10 0 25 = (25, none) :=
  ⟨(rateScheduler_deadline_update 10 0 4).1 (by norm_num),
   (rateScheduler_deadline_update 10 0 25).2.1 (by norm_num)⟩

/-- C7: RateScheduler termination — if the callback signals continue on its
first `pre.length` invocations and stop on the next one, `run_every_second`
invokes the callback exactly `pre.length + 1` times and returns; while the
callback keeps signalling continue, the scheduler never returns (no finite
all-continue trace makes it stop). -/
theorem rateScheduler_termination :
    (∀ (interval nt : Nat) (pre post : List TickInput) (b : TickInput),
      (∀ x ∈ pre, x.flow = ControlFlow.Continue) → b.flow = ControlFlow.Break →
      runEverySecond interval nt (pre ++ b :: post) = some (pre.length + 1))
    ∧ (∀ (interval nt : Nat) (inputs : List TickInput),
      (∀ x ∈ inputs, x.flow = ControlFlow.Continue) →
      runEverySecond interval nt inputs = none) := by
  constructor
  · intro interval nt pre post b hpre hb
    induction pre generalizing nt with
    | nil => simp [runEverySecond, hb]
    | cons a rest ih =>
      have ha : a.flow = ControlFlow.Continue := hpre a (by simp)
      have hrest : ∀ x ∈ rest, x.flow = ControlFlow.Continue :=
        fun x hx => hpre x (by simp [hx])
      simp [runEverySecond, ha, ih _ hrest]
  · intro interval nt inputs hall
    induction inputs generalizing nt with
    | nil => rfl
    | cons a rest ih =>
      have ha : a.flow = ControlFlow.Continue := hall a (by simp)
      have hrest : ∀ x ∈ rest, x.flow = ControlFlow.Continue :=
        fun x hx => hall x (by simp [hx])
      simp [runEverySecond, ha, ih _ hrest]

/-- Witness for C7 at concrete inputs: a continue followed by a break stops
the scheduler after exactly 2 invocations; a trace of one continue leaves
it still running. -/
theorem rateScheduler_termination_witness :
    runEverySecond 10 0 [⟨ControlFlow.Continue, 3⟩, ⟨ControlFlow.Break, 0⟩] = some 2
    ∧ runEverySecond 10 0 [⟨ControlFlow.Continue, 1⟩] = none :=
  ⟨rateScheduler_termination.1 10 0 [⟨ControlFlow.Continue, 3⟩] []
      ⟨ControlFlow.Break, 0⟩ (by decide) rfl,
   rateScheduler_termination.2 10 0 [⟨ControlFlow.Continue, 1⟩] (by decide)⟩

/-- Helper: a queue operation never changes the channel's capacity. -/
theorem applyOp_capacity (q : BoundedChannel) (op : QueueOp) :
    (applyOp q op).capacity = q.capacity := by
  cases op with
  | push f =>
    by_cases hc : q.buffer.length < q.capacity <;>
      simp [applyOp, BoundedChannel.send, hc]
  | pop =>
    cases hb : q.buffer <;> simp [applyOp, BoundedChannel.recv, hb]

/-- Helper: a queue operation preserves the bound `length ≤ capacity`. -/
theorem applyOp_length (q : BoundedChannel) (op : QueueOp)
    (h : q.buffer.length ≤ q.capacity) :
    (applyOp q op).buffer.length ≤ (applyOp q op).capacity := by
  cases op with
  | push f =>
    by_cases hc : q.buffer.length < q.capacity <;>
      simp [applyOp, BoundedChannel.send, hc] <;> omega
  | pop =>
    cases hb : q.buffer with
    | nil => simp [applyOp, BoundedChannel.recv, hb]
    | cons f rest =>
      rw [hb] at h
      simp at h
      simp [applyOp, BoundedChannel.recv, hb]
      omega

/-- Helper: a sequence of queue operations never changes the capacity. -/
theorem applyOps_capacity (q : BoundedChannel) (ops : List QueueOp) :
    (applyOps q ops).capacity = q.capacity := by
  induction ops generalizing q with
  | nil => rfl
  | cons op rest ih =>
    calc (applyOps q (op :: rest)).capacity
        = (applyOps (applyOp q op) rest).capacity := rfl
      _ = (applyOp q op).capacity := ih _
      _ = q.capacity := applyOp_capacity q op

/-- Helper: a sequence of queue operations preserves `length ≤ capacity`. -/
theorem applyOps_length (q : BoundedChannel) (ops : List QueueOp)
    (h : q.buffer.length ≤ q.capacity) :
    (applyOps q ops).buffer.length ≤ (applyOps q ops).capacity := by
  induction ops generalizing q with
  | nil => exact h
  | cons op rest ih => exact ih (applyOp q op) (applyOp_length q op h)

/-- C2: the FrameQueue of `server` is constructed with capacity exactly
`round fps`; after any sequence of pushes and pops the capacity is
unchanged, the queue never holds more than that many frames, and a push on
a full queue blocks (returns no new state: the frame is not dropped and the
queue does not grow). -/
theorem frameQueue_capacity_invariant (fps : ℚ) (ops : List QueueOp) :
    (applyOps (serverFrameQueue fps) ops).capacity = (round fps).toNat
    ∧ (applyOps (serverFrameQueue fps) ops).buffer.length ≤ (round fps).toNat
    ∧ ∀ f : Frame,
        (applyOps (serverFrameQueue fps) ops).buffer.length
          = (applyOps (serverFrameQueue fps) ops).capacity →
        (applyOps (serverFrameQueue fps) ops).send f = none := by
  have hc : (applyOps (serverFrameQueue fps) ops).capacity = (round fps).toNat := by
    rw [applyOps_capacity]; rfl
  have hl := applyOps_length (serverFrameQueue fps) ops
    (by simp [serverFrameQueue, boundedChannel])
  refine ⟨hc, hc ▸ hl, fun f hfull => ?_⟩
  simp [BoundedChannel.send, hfull]

/-- Witness for C2 at concrete inputs: with target rate 2, pushing three
frames fills the queue at capacity 2 and a further send blocks. -/
theorem frameQueue_capacity_invariant_witness :
    (applyOps (serverFrameQueue 2)
        [QueueOp.push [1], QueueOp.push [2], QueueOp.push [3]]).send [9] = none :=
  (frameQueue_capacity_invariant 2
    [QueueOp.push [1], QueueOp.push [2], QueueOp.push [3]]).2.2 [9] (by
      rw [show serverFrameQueue 2 = ⟨2, []⟩ by
        simp [serverFrameQueue, boundedChannel, round_ofNat]]
      decide)

/-- C3: paced-delivery error path — when the first `k - 1` writes succeed
and the `k`-th write fails, the delivery loop runs exactly `k` ticks, each
tick popping its frame before writing; the loop ends by signalling Break
(stopping the RateScheduler, so only this connection's task exits), and the
first `k` frames — including the one whose write failed — are consumed and
not returned to the queue. -/
theorem pacedDelivery_write_failure (k : Nat) (frames : List Frame) (ws : List Bool)
    (hk : 0 < k) (hlen : k ≤ frames.length) :
    deliveryRun frames (List.replicate (k - 1) true ++ false :: ws)
      = (frames.drop k, k, true) := by
  induction k generalizing frames with
  | zero => exact absurd hk (Nat.lt_irrefl 0)
  | succ n ih =>
    cases frames with
    | nil => simp at hlen
    | cons f fs =>
      cases n with
      | zero => simp [deliveryRun, deliveryTick]
      | succ m =>
        have hrec := ih fs (Nat.succ_pos m) (by simpa using hlen)
        simp only [Nat.add_sub_cancel] at hrec ⊢
        rw [List.replicate_succ, List.cons_append]
        simp [deliveryRun, deliveryTick, hrec]

/-- Witness for C3 at concrete inputs: three frames queued, first write
succeeds and second fails — two ticks run, two frames are consumed, the
loop stops with Break, one frame remains. -/
theorem pacedDelivery_write_failure_witness :
    deliveryRun [[1], [2], [3]] [true, false] = ([[3]], 2, true) :=
  pacedDelivery_write_failure 2 [[1], [2], [3]] [] (by norm_num) (by norm_num)

/-- Helper: folding a list of durations into a `RunningAverage` adds the
list length to the count (mod `2 ^ 32`) and the list sum to the total. -/
theorem runningAverage_foldl (ds : List Nat) (c t : Nat) (hc : c < 2 ^ 32) :
    ds.foldl RunningAverage.update ⟨c, t⟩
      = ⟨(c + ds.length) % 2 ^ 32, t + ds.sum⟩ := by
  induction ds generalizing c t with
  | nil =>
    simp only [List.foldl_nil, List.length_nil, List.sum_nil, Nat.add_zero]
    exact congrArg₂ RunningAverage.mk (Nat.mod_eq_of_lt hc).symm rfl
  | cons d ds ih =>
    have step : (d :: ds).foldl RunningAverage.update ⟨c, t⟩
        = ds.foldl RunningAverage.update ⟨(c + 1) % 2 ^ 32, t + d⟩ := rfl
    rw [step, ih ((c + 1) % 2 ^ 32) (t + d) (Nat.mod_lt _ (by norm_num))]
    simp only [List.length_cons, List.sum_cons]
    exact congrArg₂ RunningAverage.mk (by omega) (by omega)

/-- C4: after `update` is called with durations `d1..dn` (`n ≥ 1`, within
the `u32` range of the counter), `get` returns the truncated quotient of
sum of the durations by `n`; after zero updates, `get` returns `none` (absence, not a
zero duration). -/
theorem runningAverage_spec (ds : List Nat) (hne : ds ≠ []) (hlen : ds.length < 2 ^ 32) :
    (ds.foldl RunningAverage.update RunningAverage.default).get
        = some (ds.sum / ds.length)
    ∧ RunningAverage.default.get = none := by
  constructor
  · rw [show RunningAverage.default = (⟨0, 0⟩ : RunningAverage) from rfl,
      runningAverage_foldl ds 0 0 (by norm_num)]
    have hnz : ds.length ≠ 0 := fun h => hne (List.length_eq_zero.mp h)
    have hmod : ds.length % 4294967296 = ds.length := Nat.mod_eq_of_lt (by omega)
    simp [RunningAverage.get, hmod, hnz]
  · rfl

/-- Witness for C4 at concrete inputs: durations 4 and 10 average to 7, and
the fresh accumulator reports absence. -/
theorem runningAverage_spec_witness :
    (([4, 10] : List Nat).foldl RunningAverage.update RunningAverage.default).get = some 7
    ∧ RunningAverage.default.get = none :=
  ⟨(runningAverage_spec [4, 10] (by decide) (by decide)).1,
   (runningAverage_spec [4, 10] (by decide) (by decide)).2⟩

/-- C8: LatencyMonitor first interval — the first duration folded into the
client's RunningAverage is measured from the start of the read loop (the
`Instant::now()` of the first iteration, taken once the connection exists)
to the completion of the first full-frame read, not from a previous frame;
any part of the connection setup that completes at some instant
`setupDone` between loop start and the first completed read is therefore
contained in the first measured duration, and that duration is folded into
the average exactly like every later one, not excluded. -/
theorem client_first_interval (s0 d0 setupDone : Nat) (ss ds : List Nat)
    (h1 : s0 ≤ setupDone) (h2 : setupDone ≤ d0) :
    measuredDurations (s0 :: ss) (d0 :: ds) = (d0 - s0) :: measuredDurations ss ds
    ∧ d0 - s0 = (setupDone - s0) + (d0 - setupDone)
    ∧ ∀ r : RunningAverage,
        (measuredDurations (s0 :: ss) (d0 :: ds)).foldl RunningAverage.update r
          = (measuredDurations ss ds).foldl RunningAverage.update (r.update (d0 - s0)) :=
  ⟨rfl, by omega, fun r => rfl⟩

/-- Witness for C8 at concrete instants: loop starts at 10, setup completes
at 15, first frame read at 20 — the measured first duration 10 contains the
setup part 5 and is folded into the average. -/
theorem client_first_interval_witness :
    measuredDurations [10] [20] = (20 - 10) :: measuredDurations [] []
    ∧ 20 - 10 = (15 - 10) + (20 - 15)
    ∧ (measuredDurations [10] [20]).foldl RunningAverage.update RunningAverage.default
        = (measuredDurations [] []).foldl RunningAverage.update
            (RunningAverage.default.update (20 - 10)) :=
  ⟨(client_first_interval 10 20 15 [] [] (by norm_num) (by norm_num)).1,
   (client_first_interval 10 20 15 [] [] (by norm_num) (by norm_num)).2.1,
   (client_first_interval 10 20 15 [] [] (by norm_num) (by norm_num)).2.2
     RunningAverage.default⟩

/-- C9: role dispatch — a role argument that is neither `"client"` nor
`"server"` makes `main` report the error and exit with status 1 (non-zero),
and neither the client nor the server is started. -/
theorem main_unknown_role (kind : String) (hc : kind ≠ "client") (hs : kind ≠ "server") :
    mainDispatch kind = MainAction.errorExit 1
    ∧ mainDispatch kind ≠ MainAction.runClient
    ∧ mainDispatch kind ≠ MainAction.runServer
    ∧ ∀ c : Nat, mainDispatch kind = MainAction.errorExit c → c ≠ 0 := by
  have h : mainDispatch kind = MainAction.errorExit 1 := by simp [mainDispatch, hc, hs]
  refine ⟨h, by simp [h], by simp [h], fun c hcc => ?_⟩
  rw [h] at hcc
  have : (1 : Nat) = c := by injection hcc
  omega

/-- Witness for C9 at a concrete role string. -/
theorem main_unknown_role_witness :
    mainDispatch "frobnicate" = MainAction.errorExit 1 ∧ (1 : Nat) ≠ 0 :=
  ⟨(main_unknown_role "frobnicate" (by decide) (by decide)).1,
   (main_unknown_role "frobnicate" (by decide) (by decide)).2.2.2 1
     (main_unknown_role "frobnicate" (by decide) (by decide)).1⟩

/-- Helper: a bitwise or of a multiple of `2 ^ k` with a value below `2 ^ k`
is their sum (the two summands occupy disjoint bit ranges). -/
theorem lor_eq_add_of_lt {k b : Nat} (a : Nat) (h : b < 2 ^ k) :
    a * 2 ^ k ||| b = a * 2 ^ k + b := by
  rw [Nat.mul_comm a (2 ^ k)]
  exact (Nat.mul_add_lt_is_or h a).symm

/-- Helper: recombining the four big-endian bytes of a value below `2 ^ 32`
with shifts and ors, as `uuid_as_fields` does for the first field, gives the
value back. -/
theorem recompose32 {n : Nat} (h : n < 2 ^ 32) :
    (n / 2 ^ 24 % 256) <<< 24 ||| (n / 2 ^ 16 % 256) <<< 16
        ||| (n / 2 ^ 8 % 256) <<< 8 ||| n % 256 = n := by
  rw [Nat.shiftLeft_eq, Nat.shiftLeft_eq, Nat.shiftLeft_eq]
  rw [lor_eq_add_of_lt _ (show (n / 2 ^ 16 % 256) * 2 ^ 16 < 2 ^ 24 by omega)]
  rw [show (n / 2 ^ 24 % 256) * 2 ^ 24 + (n / 2 ^ 16 % 256) * 2 ^ 16
      = ((n / 2 ^ 24 % 256) * 2 ^ 8 + n / 2 ^ 16 % 256) * 2 ^ 16 by ring]
  rw [lor_eq_add_of_lt _ (show (n / 2 ^ 8 % 256) * 2 ^ 8 < 2 ^ 16 by omega)]
  rw [show ((n / 2 ^ 24 % 256) * 2 ^ 8 + n / 2 ^ 16 % 256) * 2 ^ 16
        + (n / 2 ^ 8 % 256) * 2 ^ 8
      = (((n / 2 ^ 24 % 256) * 2 ^ 8 + n / 2 ^ 16 % 256) * 2 ^ 8
        + n / 2 ^ 8 % 256) * 2 ^ 8 by ring]
  rw [lor_eq_add_of_lt _ (show n % 256 < 2 ^ 8 by omega)]
  omega

/-- Helper: recombining the two big-endian bytes of a value below `2 ^ 16`,
as `uuid_as_fields` does for the second and third fields. -/
theorem recompose16 {n : Nat} (h : n < 2 ^ 16) :
    (n / 2 ^ 8 % 256) <<< 8 ||| n % 256 = n := by
  rw [Nat.shiftLeft_eq]
  rw [lor_eq_add_of_lt _ (show n % 256 < 2 ^ 8 by omega)]
  omega

/-- Helper: `uuid_as_fields` inverts `uuidFromFields` on in-range fields. -/
theorem uuid_as_fields_fromFields (d1 d2 d3 x0 x1 x2 x3 x4 x5 x6 x7 : Nat)
    (h1 : d1 < 2 ^ 32) (h2 : d2 < 2 ^ 16) (h3 : d3 < 2 ^ 16) :
    uuid_as_fields (uuidFromFields d1 d2 d3 [x0, x1, x2, x3, x4, x5, x6, x7])
      = (d1, d2, d3, [x0, x1, x2, x3, x4, x5, x6, x7]) := by
  have e : uuid_as_fields (uuidFromFields d1 d2 d3 [x0, x1, x2, x3, x4, x5, x6, x7])
      = ((d1 / 2 ^ 24 % 256) <<< 24 ||| (d1 / 2 ^ 16 % 256) <<< 16
            ||| (d1 / 2 ^ 8 % 256) <<< 8 ||| d1 % 256,
         (d2 / 2 ^ 8 % 256) <<< 8 ||| d2 % 256,
         (d3 / 2 ^ 8 % 256) <<< 8 ||| d3 % 256,
         [x0, x1, x2, x3, x4, x5, x6, x7]) := rfl
  rw [e, recompose32 h1, recompose16 h2, recompose16 h3]

/-- Helper: the fields of the vsock template; in particular its first field
is zero, which is what makes the port round-trip work. -/
theorem uuid_as_fields_template :
    uuid_as_fields VSOCK_TEMPLATE
      = (0, 0xfacb, 0x11e6, [0xbd, 0x58, 0x64, 0x00, 0x6a, 0x79, 0x86, 0xd3]) := by
  decide

/-- C5: service-identifier round-trip — for every `u32` port `p`, rendering
`ServiceUuid::linux(p)` to a uuid and decoding that uuid with
`ServiceUuid::from_uuid` classifies it as a Linux port and yields exactly
`p`. -/
theorem serviceUuid_port_roundtrip (p : Nat) (hp : p < 2 ^ 32) :
    ServiceUuid.from_uuid (ServiceUuid.linux p).render = ServiceUuid.linux p := by
  have hr : (ServiceUuid.linux p).render
      = uuidFromFields p 0xfacb 0x11e6 [0xbd, 0x58, 0x64, 0x00, 0x6a, 0x79, 0x86, 0xd3] := by
    simp [ServiceUuid.render, uuid_as_fields_template]
  have hf := uuid_as_fields_fromFields p 0xfacb 0x11e6
    0xbd 0x58 0x64 0x00 0x6a 0x79 0x86 0xd3 hp (by norm_num) (by norm_num)
  have hcond : uuid_eq
      (uuidFromFields 0 0xfacb 0x11e6 [0xbd, 0x58, 0x64, 0x00, 0x6a, 0x79, 0x86, 0xd3])
      VSOCK_TEMPLATE = true := by decide
  rw [hr, ServiceUuid.from_uuid]
  simp [hf, hcond]

/-- Witness for C5 at a concrete port. -/
theorem serviceUuid_port_roundtrip_witness :
    ServiceUuid.from_uuid (ServiceUuid.linux 5).render = ServiceUuid.linux 5 :=
  serviceUuid_port_roundtrip 5 (by norm_num)

/-- C6: opaque identifiers — a uuid whose first field zeroed out does not
match the vsock template decodes (`from_uuid`) to an opaque Windows-side
identifier, and rendering it back yields the identifier unchanged. -/
theorem serviceUuid_windows_roundtrip (u : Uuid)
    (h : uuid_eq
        (uuidFromFields 0 (uuid_as_fields u).2.1 (uuid_as_fields u).2.2.1
          (uuid_as_fields u).2.2.2)
        VSOCK_TEMPLATE = false) :
    ServiceUuid.from_uuid u = ServiceUuid.windows u
    ∧ (ServiceUuid.from_uuid u).render = u := by
  have hu : ServiceUuid.from_uuid u = ServiceUuid.windows u := by
    rw [ServiceUuid.from_uuid]
    simp [h]
  exact ⟨hu, by rw [hu, ServiceUuid.render]⟩

/-- Witness for C6 at a concrete identifier (the all-zero uuid, which does
not match the template). -/
theorem serviceUuid_windows_roundtrip_witness :
    ServiceUuid.from_uuid [0, 0, 0, 0, 0, 0, 0, 0, 0, 0, 0, 0, 0, 0, 0, 0]
        = ServiceUuid.windows [0, 0, 0, 0, 0, 0, 0, 0, 0, 0, 0, 0, 0, 0, 0, 0]
    ∧ (ServiceUuid.from_uuid
        [0, 0, 0, 0, 0, 0, 0, 0, 0, 0, 0, 0, 0, 0, 0, 0]).render
        = [0, 0, 0, 0, 0, 0, 0, 0, 0, 0, 0, 0, 0, 0, 0, 0] :=
  serviceUuid_windows_roundtrip [0, 0, 0, 0, 0, 0, 0, 0, 0, 0, 0, 0, 0, 0, 0, 0]
    (by decide)

/-- C10: `HostRegistry::rename` evaluated on a registry holding one service
(the uuid of Linux port 5 with element name `"svc"`), renaming it to the
uuid of Linux port 7. The call performs get, delete, register in sequence
and returns success reporting element name `"svc"`; the entry for the old
uuid is gone as claimed — but the new uuid does NOT hold the element name:
its subkey is created without an `ElementName` value (register wrote the
name onto the registry root key through the shadowed `write_with` closure
parameter), so a subsequent `get` of the new uuid fails. -/
theorem hostRegistry_rename_divergence :
    HostRegistryState.rename
        ⟨none, [((ServiceUuid.linux 5).render, some "svc")]⟩
        (ServiceUuid.linux 5).render (ServiceUuid.linux 7).render
      = Except.ok (⟨some "svc", [((ServiceUuid.linux 7).render, none)]⟩, "svc")
    ∧ HostRegistryState.get ⟨some "svc", [((ServiceUuid.linux 7).render, none)]⟩
        (ServiceUuid.linux 7).render = Except.error ()
    ∧ HostRegistryState.get ⟨some "svc", [((ServiceUuid.linux 7).render, none)]⟩
        (ServiceUuid.linux 5).render = Except.error () :=
  ⟨rfl, rfl, rfl⟩

end Waydows
